import Mathlib

/-
  Verification of the token-cache core of the portfolio backend
  (src/middleware/spotifyAuth.js, src/index.js, src/models/SpotifyTokens.js).

  The embedding is shallow: the JavaScript runs on a single-threaded event
  loop, so each synchronous segment between `await` points is one atomic
  step.  Nullable JS values are `Option`; JS truthiness of strings treats
  both `null`/`undefined` and the empty string as falsy, and truthiness of
  numbers treats 0 as falsy.  `Date.now()` timestamps are naturals
  (milliseconds).  The two `Date.now()` calls inside one synchronous
  segment are modelled as the same instant.
-/

namespace Spotify

/-- Truthiness of a nullable JS string: `null`, `undefined` and `""` are falsy. -/
def jsTruthyStr : Option String → Bool
  | none => false
  | some s => !(s == "")

/-- Truthiness of a nullable JS number: `null`, `undefined` and `0` are falsy. -/
def jsTruthyNum : Option Nat → Bool
  | none => false
  | some n => n != 0

/-- The in-memory token cache object of src/middleware/spotifyAuth.js.
`refreshPromise` records whether the field holds a (truthy) promise object. -/
structure TokenCache where
  access_token : Option String
  refresh_token : Option String
  expires_at : Option Nat
  isRefreshing : Bool
  refreshPromise : Bool
deriving DecidableEq, Repr

/-- The initial cache: all token fields null, no refresh in flight. -/
def emptyCache : TokenCache :=
  { access_token := none, refresh_token := none, expires_at := none,
    isRefreshing := false, refreshPromise := false }

/-- The record written to the SpotifyTokens Mongo collection
(fields of src/models/SpotifyTokens.js). -/
structure TokensToSave where
  access_token : Option String
  refresh_token : Option String
  expires_in : Nat
  timestamp : Nat
deriving DecidableEq, Repr

/-- The JSON body of a 2xx response from the upstream token endpoint:
`access_token` and `refresh_token` may each be absent. -/
structure TokenData where
  access_token : Option String
  refresh_token : Option String
  expires_in : Nat
deriving DecidableEq, Repr

/-- Outcome of one upstream refresh attempt as observed by the code:
a parsed 2xx response, a non-2xx response (`response.ok` false), or a
thrown exception (network error or malformed JSON in `response.json()`). -/
inductive UpstreamOutcome where
  | success (d : TokenData)
  | httpError
  | netError
deriving DecidableEq, Repr

/-- Observable side effects of one call: how many HTTP requests were issued
to the upstream token endpoint, and the record of the fire-and-forget
database write, if one was started. -/
structure Effects where
  fetches : Nat
  dbWrite : Option TokensToSave
deriving DecidableEq, Repr

/-- Models updateTokens (src/middleware/spotifyAuth.js).  Sets
`access_token`, conditionally `refresh_token` (only when the argument is
truthy), `expires_at := Date.now() + expires_in * 1000`, clears the
in-flight marker, and returns the record handed to the fire-and-forget
`findOneAndUpdate` (whose `refresh_token` field reads the just-updated
cache via `refresh_token || tokenCache.refresh_token`). -/
def updateTokens (c : TokenCache) (access_token refresh_token : Option String)
    (expires_in now : Nat) : TokenCache × TokensToSave :=
  let expires_at := now + expires_in * 1000
  let c' : TokenCache :=
    { access_token := access_token
      refresh_token := if jsTruthyStr refresh_token then refresh_token else c.refresh_token
      expires_at := some expires_at
      isRefreshing := false
      refreshPromise := false }
  let save : TokensToSave :=
    { access_token := access_token
      refresh_token := if jsTruthyStr refresh_token then refresh_token else c'.refresh_token
      expires_in := expires_in
      timestamp := now }
  (c', save)

/-- Result of one caller's invocation: either a value (the JS return,
a token string or null), or the caller awaits an already in-flight
refresh promise. -/
inductive CallResult where
  | value (tok : Option String)
  | awaitFlight
deriving DecidableEq, Repr

/-- The body of the `try { ... }` block in refreshAccessToken, given the
upstream outcome.  A thrown exception (network error / JSON parse error)
is an `Except.error`, to be caught by the `catch` in `refreshAccessToken`.
Models the `data.refresh_token || null` argument passed to updateTokens. -/
def refreshTryBlock (cF : TokenCache) (u : UpstreamOutcome) (now : Nat) :
    Except Unit (TokenCache × Option TokensToSave × Option String) :=
  match u with
  | .netError => .error ()
  | .httpError => .ok ({ cF with isRefreshing := false, refreshPromise := false }, none, none)
  | .success d =>
      let rt := if jsTruthyStr d.refresh_token then d.refresh_token else none
      let (c', save) := updateTokens cF d.access_token rt d.expires_in now
      .ok (c', some save, d.access_token)

/-- Models refreshAccessToken (src/middleware/spotifyAuth.js) for one
caller.  If a refresh is already in flight, the caller awaits the shared
promise.  With no truthy refresh token it returns null at once, with no
fetch.  Otherwise it installs the in-flight marker, issues exactly one
fetch, and runs the try/catch: every exception from the try block is
caught and converted to a null return with the marker cleared. -/
def refreshAccessToken (c : TokenCache) (u : UpstreamOutcome) (now : Nat) :
    CallResult × TokenCache × Effects :=
  if c.isRefreshing && c.refreshPromise then
    (.awaitFlight, c, { fetches := 0, dbWrite := none })
  else if !(jsTruthyStr c.refresh_token) then
    (.value none, c, { fetches := 0, dbWrite := none })
  else
    let cF : TokenCache := { c with isRefreshing := true, refreshPromise := true }
    match refreshTryBlock cF u now with
    | .ok (c', save, tok) => (.value tok, c', { fetches := 1, dbWrite := save })
    | .error _ =>
        (.value none, { cF with isRefreshing := false, refreshPromise := false },
          { fetches := 1, dbWrite := none })

/-- The validity test of getValidAccessToken:
`tokenCache.access_token && tokenCache.expires_at && tokenCache.expires_at > now + 60000`. -/
def tokenValid (c : TokenCache) (now : Nat) : Bool :=
  jsTruthyStr c.access_token &&
    (match c.expires_at with
     | none => false
     | some e => (e != 0) && decide (now + 60000 < e))

/-- Models getValidAccessToken (src/middleware/spotifyAuth.js): return the
cached token when still valid past the 60s buffer, otherwise refresh. -/
def getValidAccessToken (c : TokenCache) (u : UpstreamOutcome) (now : Nat) :
    CallResult × TokenCache × Effects :=
  if tokenValid c now then (.value c.access_token, c, { fetches := 0, dbWrite := none })
  else refreshAccessToken c u now

/-- Resolves a call result to the JS value the caller's `await` yields:
an `awaitFlight` result takes the value the in-flight promise settles to. -/
def resolveCall (r : CallResult) (flightValue : Option String) : Option String :=
  match r with
  | .value t => t
  | .awaitFlight => flightValue

/-- Outcome of the middleware: a 401 response, or `next()` with the token
attached to the request. -/
inductive MwOutcome where
  | unauthorized
  | nextWith (tok : String)
deriving DecidableEq, Repr

/-- Models spotifyAuthMiddleware (src/middleware/spotifyAuth.js): awaits
getValidAccessToken and checks `if (!access_token)`. -/
def spotifyAuthMiddleware (c : TokenCache) (u : UpstreamOutcome) (now : Nat)
    (flightValue : Option String) : MwOutcome × TokenCache × Effects :=
  let out := getValidAccessToken c u now
  let tok := resolveCall out.1 flightValue
  if jsTruthyStr tok then (.nextWith (tok.getD ""), out.2.1, out.2.2)
  else (.unauthorized, out.2.1, out.2.2)

/-- Outcome of the startup `SpotifyTokens.findOne()` load: a record, no
record (`findOne` resolved null), or a thrown store error. -/
inductive LoadOutcome where
  | found (r : TokensToSave)
  | missing
  | storeErr
deriving DecidableEq, Repr

/-- Models initializeTokenCache (src/middleware/spotifyAuth.js): on a
record with truthy access and refresh tokens it replaces the whole cache,
with `expires_at := timestamp + expires_in * 1000`, and returns true;
otherwise (no record, falsy token fields, or a store error caught by the
`catch`) it leaves the cache as it was and returns false. -/
def initTokenCache (c0 : TokenCache) (load : LoadOutcome) : TokenCache × Bool :=
  match load with
  | .found r =>
      if jsTruthyStr r.access_token && jsTruthyStr r.refresh_token then
        ({ access_token := r.access_token
           refresh_token := r.refresh_token
           expires_at := some (r.timestamp + r.expires_in * 1000)
           isRefreshing := false
           refreshPromise := false }, true)
      else (c0, false)
  | .missing => (c0, false)
  | .storeErr => (c0, false)

/-- The process state seen by src/index.js: the middleware's in-memory
cache plus the singleton SpotifyTokens document in MongoDB. -/
structure SystemState where
  cache : TokenCache
  db : Option TokensToSave
deriving DecidableEq, Repr

/-- Models writeSpotifyTokens (src/index.js): `findOneAndUpdate({}, tokens,
{upsert: true})`, with any error caught and logged. `dbOk` is whether the
store write succeeds. -/
def writeSpotifyTokens (db : Option TokensToSave) (tokens : TokensToSave)
    (dbOk : Bool) : Option TokensToSave :=
  if dbOk then some tokens else db

/-- Models the success branch of the GET /callback handler (src/index.js):
after a 2xx code-exchange response it calls
`writeSpotifyTokens({access_token, refresh_token, expires_in, timestamp: Date.now()})`
and redirects.  The in-memory token cache is not touched. -/
def callbackSuccess (st : SystemState) (d : TokenData) (now : Nat) (dbOk : Bool) :
    SystemState :=
  { st with
    db := writeSpotifyTokens st.db
      { access_token := d.access_token, refresh_token := d.refresh_token,
        expires_in := d.expires_in, timestamp := now } dbOk }

/-- One caller's refresh together with the fate of the fire-and-forget
database write: `dbOk` is whether that write succeeds.  The write's
outcome is only ever logged; nothing else reads it. -/
def refreshFull (c : TokenCache) (db : Option TokensToSave) (u : UpstreamOutcome)
    (now : Nat) (dbOk : Bool) :
    CallResult × TokenCache × Option TokensToSave × Effects :=
  let out := refreshAccessToken c u now
  match out.2.2.dbWrite with
  | none => (out.1, out.2.1, db, out.2.2)
  | some w => (out.1, out.2.1, writeSpotifyTokens db w dbOk, out.2.2)

/-- State of one concurrent request handler in the event-loop machine. -/
inductive CallerState where
  | pending
  | waiting
  | done (result : Option String)
deriving DecidableEq, Repr

/-- The event-loop machine for `n` concurrent handlers calling
getValidAccessToken.  `fetches` counts HTTP requests issued to the
upstream token endpoint. -/
structure Machine (n : Nat) where
  cache : TokenCache
  callers : Fin n → CallerState
  fetches : Nat

/-- One caller's synchronous segment of getValidAccessToken at instant
`t`: it either returns the valid cached token, awaits the in-flight
promise, fails with no refresh token, or installs the marker and issues
the fetch, then suspends on the shared promise.  Node's single-threaded
event loop makes this whole segment atomic (no `await` inside it). -/
def invoke {n : Nat} (m : Machine n) (i : Fin n) (t : Nat) : Machine n :=
  match m.callers i with
  | .pending =>
      if tokenValid m.cache t then
        { m with callers := Function.update m.callers i (.done m.cache.access_token) }
      else if m.cache.isRefreshing && m.cache.refreshPromise then
        { m with callers := Function.update m.callers i .waiting }
      else if !(jsTruthyStr m.cache.refresh_token) then
        { m with callers := Function.update m.callers i (.done none) }
      else
        { cache := { m.cache with isRefreshing := true, refreshPromise := true }
          callers := Function.update m.callers i .waiting
          fetches := m.fetches + 1 }
  | _ => m

/-- Settling of the shared refresh promise: every waiting caller resumes
with the published value. -/
def resolveWaiters {n : Nat} (cs : Fin n → CallerState) (r : Option String) :
    Fin n → CallerState :=
  fun i => match cs i with
    | .waiting => .done r
    | s => s

/-- The value the shared refresh promise settles to for a given upstream
outcome: the new access token on success, null on any failure. -/
def flightResult (u : UpstreamOutcome) : Option String :=
  match u with
  | .success d => d.access_token
  | .httpError => none
  | .netError => none

/-- Completion of the in-flight refresh with upstream outcome `u` at
instant `t`: the try/catch body runs (updating or preserving the cache
and clearing the marker) and the shared promise settles, resuming every
waiting caller with the same value.  No new fetch is issued. -/
def complete {n : Nat} (m : Machine n) (u : UpstreamOutcome) (t : Nat) : Machine n :=
  if m.cache.isRefreshing && m.cache.refreshPromise then
    match refreshTryBlock m.cache u t with
    | .ok (c', _, tok) =>
        { cache := c', callers := resolveWaiters m.callers tok, fetches := m.fetches }
    | .error _ =>
        { cache := { m.cache with isRefreshing := false, refreshPromise := false }
          callers := resolveWaiters m.callers none
          fetches := m.fetches }
  else m

/-- Folding a batch of caller invocations over the machine, each at its
own instant. -/
def invokeAll {n : Nat} (m : Machine n) (l : List (Fin n × Nat)) : Machine n :=
  l.foldl (fun m p => invoke m p.1 p.2) m

/-- The validity test reads only `access_token` and `expires_at`. -/
theorem tokenValid_congr (c c0 : TokenCache) (t : Nat)
    (h1 : c.access_token = c0.access_token) (h2 : c.expires_at = c0.expires_at) :
    tokenValid c t = tokenValid c0 t := by
  unfold tokenValid
  rw [h1, h2]

/-- A caller already waiting (or finished) is not re-run: invoke is a
no-op unless the caller is pending. -/
theorem invoke_of_not_pending {n : Nat} (m : Machine n) (i : Fin n) (t : Nat)
    (h : m.callers i ≠ .pending) : invoke m i t = m := by
  unfold invoke
  match hi : m.callers i with
  | .pending => exact absurd hi h
  | .waiting => rfl
  | .done r => rfl

/-- A pending caller that sees a valid token finishes with it at once. -/
theorem invoke_pending_valid {n : Nat} (m : Machine n) (i : Fin n) (t : Nat)
    (hp : m.callers i = .pending) (hv : tokenValid m.cache t = true) :
    invoke m i t =
      { m with callers := Function.update m.callers i (.done m.cache.access_token) } := by
  unfold invoke
  rw [hp]
  simp [hv]

/-- A pending caller that sees a stale token and an in-flight refresh
joins the shared promise. -/
theorem invoke_pending_join {n : Nat} (m : Machine n) (i : Fin n) (t : Nat)
    (hp : m.callers i = .pending) (hv : tokenValid m.cache t = false)
    (hR : m.cache.isRefreshing = true) (hP : m.cache.refreshPromise = true) :
    invoke m i t = { m with callers := Function.update m.callers i .waiting } := by
  unfold invoke
  rw [hp]
  simp [hv, hR, hP]

/-- A pending caller that sees a stale token, no flight, and a truthy
refresh token starts the one refresh: marker installed, one fetch issued. -/
theorem invoke_pending_start {n : Nat} (m : Machine n) (i : Fin n) (t : Nat)
    (hp : m.callers i = .pending) (hv : tokenValid m.cache t = false)
    (hR : m.cache.isRefreshing = false)
    (hrt : jsTruthyStr m.cache.refresh_token = true) :
    invoke m i t =
      { cache := { m.cache with isRefreshing := true, refreshPromise := true }
        callers := Function.update m.callers i .waiting
        fetches := m.fetches + 1 } := by
  unfold invoke
  rw [hp]
  simp [hv, hR, hrt]

/-- Invariant of the stale-window invoke phase: the token fields still
hold their initial values, the two in-flight flags agree, the fetch count
is 1 exactly when the flight is on, every caller is pending or waiting,
and nobody waits before the flight starts. -/
def MGood (c0 : TokenCache) {n : Nat} (m : Machine n) : Prop :=
  m.cache.access_token = c0.access_token ∧
  m.cache.expires_at = c0.expires_at ∧
  m.cache.refresh_token = c0.refresh_token ∧
  m.cache.isRefreshing = m.cache.refreshPromise ∧
  m.fetches = (if m.cache.isRefreshing then 1 else 0) ∧
  (∀ i, m.callers i = .pending ∨ m.callers i = .waiting) ∧
  (m.cache.isRefreshing = false → ∀ i, m.callers i = .pending)

/-- One stale-window invoke preserves the invariant, leaves the invoked
caller waiting, and keeps every already-waiting caller waiting. -/
theorem invoke_step (c0 : TokenCache) {n : Nat} (m : Machine n) (i : Fin n) (t : Nat)
    (hg : MGood c0 m) (hstale : tokenValid c0 t = false)
    (hrt : jsTruthyStr c0.refresh_token = true) :
    MGood c0 (invoke m i t) ∧ (invoke m i t).callers i = .waiting ∧
      (∀ j, m.callers j = .waiting → (invoke m i t).callers j = .waiting) := by
  obtain ⟨ha, he, hr, hf, hc, hall, hemp⟩ := hg
  have hv : tokenValid m.cache t = false := by
    rw [tokenValid_congr m.cache c0 t ha he]
    exact hstale
  rcases hall i with hi | hi
  · rcases hR : m.cache.isRefreshing with _ | _
    · have heq := invoke_pending_start m i t hi hv hR (hr ▸ hrt)
      rw [heq]
      have hfz : m.fetches = 0 := by simp [hc, hR]
      refine ⟨⟨ha, he, hr, rfl, by simp [hfz], ?_, ?_⟩, ?_, ?_⟩
      · intro j
        rcases eq_or_ne j i with hj | hj
        · subst hj
          simp
        · simp only [Function.update_noteq hj]
          exact hall j
      · intro hcontra
        simp at hcontra
      · simp
      · intro j hj
        rcases eq_or_ne j i with hje | hje
        · subst hje
          simp
        · simp only [Function.update_noteq hje]
          exact hj
    · have hP : m.cache.refreshPromise = true := hf ▸ hR
      have heq := invoke_pending_join m i t hi hv hR hP
      rw [heq]
      refine ⟨⟨ha, he, hr, hf, hc, ?_, ?_⟩, ?_, ?_⟩
      · intro j
        rcases eq_or_ne j i with hj | hj
        · subst hj
          simp
        · simp only [Function.update_noteq hj]
          exact hall j
      · intro hcontra
        rw [hR] at hcontra
        cases hcontra
      · simp
      · intro j hj
        rcases eq_or_ne j i with hje | hje
        · subst hje
          simp
        · simp only [Function.update_noteq hje]
          exact hj
  · have heq := invoke_of_not_pending m i t (by rw [hi]; intro h; cases h)
    rw [heq]
    exact ⟨⟨ha, he, hr, hf, hc, hall, hemp⟩, hi, fun j hj => hj⟩

/-- Folding any batch of stale-window invokes preserves the invariant and
leaves every invoked caller waiting. -/
theorem invokeAll_inv (c0 : TokenCache) {n : Nat}
    (hrt : jsTruthyStr c0.refresh_token = true)
    (l : List (Fin n × Nat)) :
    ∀ (m : Machine n), MGood c0 m →
      (∀ p ∈ l, tokenValid c0 p.2 = false) →
      MGood c0 (invokeAll m l) ∧
      (∀ i : Fin n, i ∈ l.map Prod.fst ∨ m.callers i = .waiting →
        (invokeAll m l).callers i = .waiting) := by
  induction l with
  | nil =>
      intro m hg _
      refine ⟨hg, ?_⟩
      intro i hi
      rcases hi with hi | hi
      · simp at hi
      · exact hi
  | cons p l' ih =>
      intro m hg hst
      have hstp : tokenValid c0 p.2 = false := hst p (List.mem_cons_self p l')
      obtain ⟨hg', hwi, hpres⟩ := invoke_step c0 m p.1 p.2 hg hstp hrt
      have hst' : ∀ q ∈ l', tokenValid c0 q.2 = false :=
        fun q hq => hst q (List.mem_cons_of_mem p hq)
      obtain ⟨hgF, hcov⟩ := ih (invoke m p.1 p.2) hg' hst'
      have hfold : invokeAll m (p :: l') = invokeAll (invoke m p.1 p.2) l' := rfl
      rw [hfold]
      refine ⟨hgF, ?_⟩
      intro i hi
      rcases hi with hi | hi
      · have hi' : i = p.1 ∨ i ∈ l'.map Prod.fst := by simpa using hi
        rcases hi' with hi' | hi'
        · subst hi'
          exact hcov p.1 (Or.inr hwi)
        · exact hcov i (Or.inl hi')
      · exact hcov i (Or.inr (hpres i hi))

/-- The machine at the start of a window: `n` handlers about to call
getValidAccessToken, cache `c0`, no fetch issued yet. -/
def initMachine (n : Nat) (c0 : TokenCache) : Machine n :=
  { cache := c0, callers := fun _ => .pending, fetches := 0 }

/-- C1.  N concurrent callers racing into getValidAccessToken while the
cached token is stale and a refresh token is cached: in every
interleaving of their (atomic) synchronous segments followed by the
settling of the in-flight refresh, exactly one HTTP request is issued to
the upstream token endpoint, and every caller finishes with the same
result — the new access token when the upstream answered 2xx, null on any
failure. -/
theorem refresh_single_flight {n : Nat} (hn : 0 < n) (c0 : TokenCache)
    (l : List (Fin n × Nat)) (u : UpstreamOutcome) (tc : Nat)
    (hf1 : c0.isRefreshing = false) (hf2 : c0.refreshPromise = false)
    (hrt : jsTruthyStr c0.refresh_token = true)
    (hstale : ∀ p ∈ l, tokenValid c0 p.2 = false)
    (hcover : ∀ i : Fin n, i ∈ l.map Prod.fst) :
    (complete (invokeAll (initMachine n c0) l) u tc).fetches = 1 ∧
    ∀ i, (complete (invokeAll (initMachine n c0) l) u tc).callers i
      = .done (flightResult u) := by
  have hg0 : MGood c0 (initMachine n c0) := by
    refine ⟨rfl, rfl, rfl, ?_, ?_, ?_, ?_⟩
    · simp [initMachine, hf1, hf2]
    · simp [initMachine, hf1]
    · intro i
      exact Or.inl rfl
    · intro _ i
      rfl
  obtain ⟨hgF, hcov⟩ := invokeAll_inv c0 hrt l (initMachine n c0) hg0 hstale
  obtain ⟨ha, he, hr, hf, hc, hall, hemp⟩ := hgF
  have hwait : ∀ i, (invokeAll (initMachine n c0) l).callers i = .waiting :=
    fun i => hcov i (Or.inl (hcover i))
  have hRon : (invokeAll (initMachine n c0) l).cache.isRefreshing = true := by
    rcases hR : (invokeAll (initMachine n c0) l).cache.isRefreshing with _ | _
    · have := hemp hR ⟨0, hn⟩
      rw [hwait ⟨0, hn⟩] at this
      cases this
    · rfl
  have hPon : (invokeAll (initMachine n c0) l).cache.refreshPromise = true :=
    hf ▸ hRon
  have hfet : (invokeAll (initMachine n c0) l).fetches = 1 := by
    simp [hc, hRon]
  constructor
  · cases u <;> simp [complete, hRon, hPon, refreshTryBlock, updateTokens] <;> exact hfet
  · intro i
    cases u <;>
      simp [complete, hRon, hPon, refreshTryBlock, updateTokens, flightResult,
        resolveWaiters, hwait i]

/-- Concrete stale cache used by the single-flight witness. -/
def c0w : TokenCache :=
  { access_token := some "OLDTOKEN", refresh_token := some "R1",
    expires_at := some 50000, isRefreshing := false, refreshPromise := false }

/-- Witness: two callers race in at instant 100 over a token that expired
at 50000; the refresh settles successfully at 200 — one fetch, both get "A2". -/
theorem refresh_single_flight_w :
    (∀ p ∈ [((0 : Fin 2), (100 : Nat)), (1, 100)], tokenValid c0w p.2 = false) ∧
    (complete (invokeAll (initMachine 2 c0w)
        [((0 : Fin 2), (100 : Nat)), (1, 100)])
      (.success { access_token := some "A2", refresh_token := none, expires_in := 3600 })
      200).fetches = 1 ∧
    (complete (invokeAll (initMachine 2 c0w)
        [((0 : Fin 2), (100 : Nat)), (1, 100)])
      (.success { access_token := some "A2", refresh_token := none, expires_in := 3600 })
      200).callers 0 = .done (some "A2") :=
  ⟨by decide,
    (refresh_single_flight (n := 2) (by decide) c0w
        [((0 : Fin 2), (100 : Nat)), (1, 100)]
        (.success { access_token := some "A2", refresh_token := none, expires_in := 3600 })
        200 rfl rfl (by decide) (by decide) (by decide)).1,
    (refresh_single_flight (n := 2) (by decide) c0w
        [((0 : Fin 2), (100 : Nat)), (1, 100)]
        (.success { access_token := some "A2", refresh_token := none, expires_in := 3600 })
        200 rfl rfl (by decide) (by decide) (by decide)).2 0⟩

/-- Unfolding equation: a null string is falsy. -/
theorem jsTruthyStr_none : jsTruthyStr none = false := rfl

/-- Unfolding equation: a string is truthy exactly when non-empty. -/
theorem jsTruthyStr_some (s : String) : jsTruthyStr (some s) = !(s == "") := rfl

/-- A truthy string option is exactly a non-empty string. -/
theorem jsTruthyStr_iff (o : Option String) :
    jsTruthyStr o = true ↔ ∃ s, o = some s ∧ s ≠ "" := by
  cases o <;> simp [jsTruthyStr]

/-- Sufficient conditions for the 60s-buffer validity test to pass. -/
theorem tokenValid_of (c : TokenCache) (a : String) (e t : Nat)
    (ha : c.access_token = some a) (hne : a ≠ "") (he : c.expires_at = some e)
    (hgt : t + 60000 < e) : tokenValid c t = true := by
  unfold tokenValid jsTruthyStr
  rw [ha, he]
  have h0 : e ≠ 0 := by omega
  simp [hne, h0, hgt]

/-- Folding valid-window invokes: the cache is untouched, no fetch is
issued, and every invoked caller finishes with the cached token. -/
theorem invokeAll_valid (c0 : TokenCache) {n : Nat} (l : List (Fin n × Nat)) :
    ∀ (m : Machine n), m.cache = c0 →
      (∀ p ∈ l, tokenValid c0 p.2 = true) →
      (∀ i, m.callers i = .pending ∨ m.callers i = .done c0.access_token) →
      (invokeAll m l).cache = c0 ∧ (invokeAll m l).fetches = m.fetches ∧
      (∀ i, (invokeAll m l).callers i = .pending ∨
        (invokeAll m l).callers i = .done c0.access_token) ∧
      (∀ i, i ∈ l.map Prod.fst ∨ m.callers i = .done c0.access_token →
        (invokeAll m l).callers i = .done c0.access_token) := by
  induction l with
  | nil =>
      intro m hch _ hall
      refine ⟨hch, rfl, hall, ?_⟩
      intro i hi
      rcases hi with hi | hi
      · simp at hi
      · exact hi
  | cons p l' ih =>
      intro m hch hst hall
      have hv : tokenValid m.cache p.2 = true := by
        rw [hch]
        exact hst p (List.mem_cons_self p l')
      have hstep : (invoke m p.1 p.2).cache = c0 ∧
          (invoke m p.1 p.2).fetches = m.fetches ∧
          (∀ i, (invoke m p.1 p.2).callers i = .pending ∨
            (invoke m p.1 p.2).callers i = .done c0.access_token) ∧
          (invoke m p.1 p.2).callers p.1 = .done c0.access_token ∧
          (∀ j, m.callers j = .done c0.access_token →
            (invoke m p.1 p.2).callers j = .done c0.access_token) := by
        rcases hall p.1 with hp | hp
        · have heq := invoke_pending_valid m p.1 p.2 hp hv
          rw [heq]
          refine ⟨hch, rfl, ?_, ?_, ?_⟩
          · intro i
            rcases eq_or_ne i p.1 with hi | hi
            · subst hi
              right
              simp [hch]
            · simp only [Function.update_noteq hi]
              exact hall i
          · simp [hch]
          · intro j hj
            rcases eq_or_ne j p.1 with hje | hje
            · subst hje
              simp [hch]
            · simp only [Function.update_noteq hje]
              exact hj
        · have heq := invoke_of_not_pending m p.1 p.2 (by rw [hp]; intro h; cases h)
          rw [heq]
          exact ⟨hch, rfl, hall, hp, fun j hj => hj⟩
      obtain ⟨hch', hf', hall', hp1, hpres⟩ := hstep
      have hst' : ∀ q ∈ l', tokenValid c0 q.2 = true :=
        fun q hq => hst q (List.mem_cons_of_mem p hq)
      obtain ⟨hchF, hfF, hallF, hcovF⟩ := ih (invoke m p.1 p.2) hch' hst' hall'
      have hfold : invokeAll m (p :: l') = invokeAll (invoke m p.1 p.2) l' := rfl
      rw [hfold]
      refine ⟨hchF, by rw [hfF, hf'], hallF, ?_⟩
      intro i hi
      rcases hi with hi | hi
      · have hi' : i = p.1 ∨ i ∈ l'.map Prod.fst := by simpa using hi
        rcases hi' with hi' | hi'
        · subst hi'
          exact hcovF p.1 (Or.inr hp1)
        · exact hcovF i (Or.inl hi')
      · exact hcovF i (Or.inr (hpres i hi))

/-- C2.  When the cache holds a (non-empty) access token whose expiry lies
strictly beyond now + 60s, getValidAccessToken returns that token at once,
with no fetch, no store write and no state change; and in the event-loop
machine every batch of concurrent calls inside the validity window issues
no fetch and every caller gets that same token. -/
theorem getValid_cached_hot_path (c : TokenCache) (u : UpstreamOutcome) (now : Nat)
    (a : String) (e : Nat)
    (ha : c.access_token = some a) (hne : a ≠ "")
    (he : c.expires_at = some e) (hgt : now + 60000 < e) :
    getValidAccessToken c u now
      = (.value (some a), c, { fetches := 0, dbWrite := none }) ∧
    ∀ {n : Nat} (l : List (Fin n × Nat)),
      (∀ p ∈ l, p.2 + 60000 < e) →
      (invokeAll (initMachine n c) l).fetches = 0 ∧
      ∀ i : Fin n, i ∈ l.map Prod.fst →
        (invokeAll (initMachine n c) l).callers i = .done (some a) := by
  have hval : ∀ t, t + 60000 < e → tokenValid c t = true :=
    fun t ht => tokenValid_of c a e t ha hne he ht
  constructor
  · simp [getValidAccessToken, hval now hgt, ha]
  · intro n l hts
    have hst : ∀ p ∈ l, tokenValid c p.2 = true := fun p hp => hval p.2 (hts p hp)
    obtain ⟨hch, hf, hall, hcov⟩ :=
      invokeAll_valid c l (initMachine n c) rfl hst (fun i => Or.inl rfl)
    refine ⟨by rw [hf]; rfl, ?_⟩
    intro i hi
    have hdone := hcov i (Or.inl hi)
    rw [ha] at hdone
    exact hdone

/-- Concrete valid cache used by the hot-path witness. -/
def cValid : TokenCache :=
  { access_token := some "A1", refresh_token := some "R1",
    expires_at := some 1000000, isRefreshing := false, refreshPromise := false }

/-- Witness: a cache holding "A1" valid until 1000000, read at instant 0
and concurrently by one caller at instant 0 — the token is returned and no
fetch is issued. -/
theorem getValid_cached_hot_path_w :
    ("A1" : String) ≠ "" ∧ (0 : Nat) + 60000 < 1000000 ∧
    getValidAccessToken cValid .netError 0
      = (.value (some "A1"), cValid, { fetches := 0, dbWrite := none }) ∧
    (invokeAll (initMachine 1 cValid) [((0 : Fin 1), 0)]).fetches = 0 :=
  ⟨by decide, by decide,
    (getValid_cached_hot_path cValid .netError 0 "A1" 1000000 rfl (by decide) rfl
      (by decide)).1,
    ((getValid_cached_hot_path cValid .netError 0 "A1" 1000000 rfl (by decide) rfl
      (by decide)).2 (n := 1) [((0 : Fin 1), 0)] (by decide)).1⟩

/-- C3.  A successful refresh (2xx carrying a new access token) rewrites
access_token and expires_at together — expires_at = now + expires_in·1000,
exact in this model since both Date.now() readings are one instant — and
keeps the cached refresh token when the upstream omitted one, replacing it
when the upstream supplied a new (non-empty) one, never dropping the old
value otherwise. -/
theorem refresh_success_updates (c : TokenCache) (d : TokenData) (a : String) (now : Nat)
    (hf1 : c.isRefreshing = false)
    (hrt : jsTruthyStr c.refresh_token = true)
    (ha : d.access_token = some a) :
    (refreshAccessToken c (.success d) now).1 = .value (some a) ∧
    (refreshAccessToken c (.success d) now).2.1.access_token = some a ∧
    (refreshAccessToken c (.success d) now).2.1.expires_at
      = some (now + d.expires_in * 1000) ∧
    (d.refresh_token = none →
      (refreshAccessToken c (.success d) now).2.1.refresh_token = c.refresh_token) ∧
    (∀ s, s ≠ "" → d.refresh_token = some s →
      (refreshAccessToken c (.success d) now).2.1.refresh_token = some s) := by
  refine ⟨?_, ?_, ?_, ?_, ?_⟩
  · simp [refreshAccessToken, hf1, hrt, refreshTryBlock, updateTokens, ha]
  · simp [refreshAccessToken, hf1, hrt, refreshTryBlock, updateTokens, ha]
  · simp [refreshAccessToken, hf1, hrt, refreshTryBlock, updateTokens]
  · intro hnone
    simp [refreshAccessToken, hf1, hrt, refreshTryBlock, updateTokens, hnone, jsTruthyStr_none]
  · intro s hs hsome
    simp [refreshAccessToken, hf1, hrt, refreshTryBlock, updateTokens, hsome,
      jsTruthyStr_some, hs]

/-- Cache holding a stale token and a refresh token, for witnesses. -/
def cStale : TokenCache :=
  { access_token := some "A0", refresh_token := some "R1",
    expires_at := some 7, isRefreshing := false, refreshPromise := false }

/-- Witness: refreshing cStale with a 2xx response carrying "A2" and no
refresh token leaves refresh_token "R1" and stamps expires_at 5 + 3600000. -/
theorem refresh_success_updates_w :
    jsTruthyStr cStale.refresh_token = true ∧
    (refreshAccessToken cStale
      (.success { access_token := some "A2", refresh_token := none, expires_in := 3600 })
      5).2.1.access_token = some "A2" ∧
    (refreshAccessToken cStale
      (.success { access_token := some "A2", refresh_token := none, expires_in := 3600 })
      5).2.1.refresh_token = some "R1" :=
  ⟨by decide,
    (refresh_success_updates cStale
      { access_token := some "A2", refresh_token := none, expires_in := 3600 }
      "A2" 5 rfl (by decide) rfl).2.1,
    (refresh_success_updates cStale
      { access_token := some "A2", refresh_token := none, expires_in := 3600 }
      "A2" 5 rfl (by decide) rfl).2.2.2.1 rfl⟩

/-- C4.  A failed refresh attempt — non-2xx response or thrown network
error — leaves access_token, refresh_token and expires_at exactly as they
were, clears the in-flight marker, and hands the caller the failure result
(null, the code's encoding of RefreshFailed), after exactly one fetch and
no store write. -/
theorem refresh_failure_preserves (c : TokenCache) (u : UpstreamOutcome) (now : Nat)
    (hf1 : c.isRefreshing = false)
    (hrt : jsTruthyStr c.refresh_token = true)
    (hu : u = .httpError ∨ u = .netError) :
    (refreshAccessToken c u now).1 = .value none ∧
    (refreshAccessToken c u now).2.1.access_token = c.access_token ∧
    (refreshAccessToken c u now).2.1.refresh_token = c.refresh_token ∧
    (refreshAccessToken c u now).2.1.expires_at = c.expires_at ∧
    (refreshAccessToken c u now).2.1.isRefreshing = false ∧
    (refreshAccessToken c u now).2.1.refreshPromise = false ∧
    (refreshAccessToken c u now).2.2 = { fetches := 1, dbWrite := none } := by
  rcases hu with hu | hu <;> subst hu <;>
    simp [refreshAccessToken, hf1, hrt, refreshTryBlock]

/-- Witness: a non-2xx refresh of cStale returns null and preserves all
three cached fields. -/
theorem refresh_failure_preserves_w :
    jsTruthyStr cStale.refresh_token = true ∧
    (refreshAccessToken cStale .httpError 5).1 = .value none ∧
    (refreshAccessToken cStale .httpError 5).2.1.access_token = cStale.access_token :=
  ⟨by decide,
    (refresh_failure_preserves cStale .httpError 5 rfl (by decide) (Or.inl rfl)).1,
    (refresh_failure_preserves cStale .httpError 5 rfl (by decide) (Or.inl rfl)).2.1⟩

/-- Cache with a refresh token only, for the failure-comparison below. -/
def cOnlyR : TokenCache := { emptyCache with refresh_token := some "R1" }

/-- C5 counterexample: with no refresh token cached, getValidAccessToken
fails fast with null and no fetch — but that null is exactly the value a
failed upstream refresh returns, so the NoRefreshToken failure is NOT a
distinguishable error at the interface. -/
theorem noRefreshToken_not_distinct :
    getValidAccessToken emptyCache .httpError 0
      = (.value none, emptyCache, { fetches := 0, dbWrite := none }) ∧
    (getValidAccessToken emptyCache .httpError 0).1
      = (getValidAccessToken cOnlyR .httpError 0).1 ∧
    (getValidAccessToken cOnlyR .httpError 0).2.2.fetches = 1 := by
  refine ⟨by decide, by decide, by decide⟩

/-- C5 amended: with no (truthy) refresh token and a stale or absent
access token, getValidAccessToken / refreshAccessToken fails immediately —
null result, no fetch, cache unchanged — the null being the same value a
failed refresh produces rather than a distinct NoRefreshToken error. -/
theorem noRefreshToken_fails_fast (c : TokenCache) (u : UpstreamOutcome) (now : Nat)
    (hf1 : c.isRefreshing = false)
    (hrt : jsTruthyStr c.refresh_token = false)
    (hstale : tokenValid c now = false) :
    getValidAccessToken c u now = (.value none, c, { fetches := 0, dbWrite := none }) := by
  simp [getValidAccessToken, hstale, refreshAccessToken, hf1, hrt]

/-- Witness: the empty cache fails fast on any outcome, here a would-be
successful upstream response that is never requested. -/
theorem noRefreshToken_fails_fast_w :
    jsTruthyStr emptyCache.refresh_token = false ∧
    getValidAccessToken emptyCache
      (.success { access_token := some "A9", refresh_token := none, expires_in := 3600 }) 0
      = (.value none, emptyCache, { fetches := 0, dbWrite := none }) :=
  ⟨by decide,
    noRefreshToken_fails_fast emptyCache
      (.success { access_token := some "A9", refresh_token := none, expires_in := 3600 })
      0 rfl (by decide) (by decide)⟩

/-- Fresh-login system state and exchanged tokens for the callback claims. -/
def s0sys : SystemState := { cache := emptyCache, db := none }

/-- Token data returned by a successful authorization-code exchange. -/
def dLogin : TokenData :=
  { access_token := some "A1", refresh_token := some "R1", expires_in := 3600 }

/-- C6 counterexample: after a successful code exchange the /callback
handler leaves the in-memory cache untouched (access_token still null),
whereas writing through updateTokens — the recordExternalUpdate entry
point the claim names — would have seeded it with "A1". -/
theorem callback_bypasses_cache :
    (callbackSuccess s0sys dLogin 1000 true).cache.access_token = none ∧
    ((updateTokens s0sys.cache (some "A1") (some "R1") 3600 1000).1).access_token
      = some "A1" ∧
    (callbackSuccess s0sys dLogin 1000 true).cache
      ≠ (updateTokens s0sys.cache (some "A1") (some "R1") 3600 1000).1 := by
  refine ⟨by decide, by decide, by decide⟩

/-- C6 amended: the /callback success path persists the exchanged tokens
directly to the store via writeSpotifyTokens (an upsert of the singleton
record) and does not write through updateTokens: the in-memory cache is
left unchanged by a fresh login, and is only populated at startup or by a
later refresh. -/
theorem callback_writes_store_only (st : SystemState) (d : TokenData) (now : Nat)
    (dbOk : Bool) :
    (callbackSuccess st d now dbOk).cache = st.cache ∧
    (callbackSuccess st d now true).db
      = some { access_token := d.access_token, refresh_token := d.refresh_token,
               expires_in := d.expires_in, timestamp := now } := by
  exact ⟨rfl, rfl⟩

/-- C7 counterexample: a store error during cache initialization yields
exactly the same outcome as "no record found" — cache unchanged, false
returned — so the code has no InitError distinct from the non-error
no-record case. -/
theorem initStoreError_not_distinct :
    initTokenCache emptyCache .storeErr = initTokenCache emptyCache .missing ∧
    initTokenCache emptyCache .storeErr = (emptyCache, false) := by
  refine ⟨by decide, by decide⟩

/-- C7 amended: initTokenCache populates the in-memory fields (with
expires_at = timestamp + expires_in·1000) exactly when a stored record
with truthy (non-empty) access and refresh tokens is present; on an absent
or malformed record, and equally on a store error, it leaves the cache
unchanged and returns false — one indistinct outcome, not a separate
InitError. -/
theorem initTokenCache_behavior (c0 : TokenCache) (r : TokensToSave)
    (hA : jsTruthyStr r.access_token = true)
    (hB : jsTruthyStr r.refresh_token = true) :
    initTokenCache c0 (.found r)
      = ({ access_token := r.access_token, refresh_token := r.refresh_token,
           expires_at := some (r.timestamp + r.expires_in * 1000),
           isRefreshing := false, refreshPromise := false }, true) ∧
    (∀ r', jsTruthyStr r'.access_token = false ∨ jsTruthyStr r'.refresh_token = false →
      initTokenCache c0 (.found r') = (c0, false)) ∧
    initTokenCache c0 .missing = (c0, false) ∧
    initTokenCache c0 .storeErr = (c0, false) := by
  refine ⟨?_, ?_, rfl, rfl⟩
  · simp [initTokenCache, hA, hB]
  · intro r' hr'
    rcases hr' with h | h <;> simp [initTokenCache, h]

/-- Witness: a well-formed stored record is loaded into the cache with the
computed absolute expiry; a record with an empty access token is not. -/
theorem initTokenCache_behavior_w :
    jsTruthyStr (some "A1") = true ∧
    initTokenCache emptyCache
        (.found { access_token := some "A1", refresh_token := some "R1",
                  expires_in := 3600, timestamp := 500 })
      = ({ access_token := some "A1", refresh_token := some "R1",
           expires_at := some (500 + 3600 * 1000),
           isRefreshing := false, refreshPromise := false }, true) ∧
    initTokenCache emptyCache
        (.found { access_token := some "", refresh_token := some "R1",
                  expires_in := 3600, timestamp := 500 })
      = (emptyCache, false) :=
  ⟨by decide,
    (initTokenCache_behavior emptyCache
      { access_token := some "A1", refresh_token := some "R1",
        expires_in := 3600, timestamp := 500 } (by decide) (by decide)).1,
    (initTokenCache_behavior emptyCache
      { access_token := some "A1", refresh_token := some "R1",
        expires_in := 3600, timestamp := 500 } (by decide) (by decide)).2.1
      { access_token := some "", refresh_token := some "R1",
        expires_in := 3600, timestamp := 500 } (Or.inl (by decide))⟩

/-- C8.  When the fire-and-forget store write after a successful refresh
fails, the failure is swallowed: the caller still receives the new access
token, the in-memory cache keeps the updated values, and the run differs
from a successful-write run only in the store contents (which stay as they
were). -/
theorem persist_failure_swallowed (c : TokenCache) (db : Option TokensToSave)
    (d : TokenData) (a : String) (now : Nat)
    (hf1 : c.isRefreshing = false)
    (hrt : jsTruthyStr c.refresh_token = true)
    (ha : d.access_token = some a) :
    (refreshFull c db (.success d) now false).1 = .value (some a) ∧
    (refreshFull c db (.success d) now false).1
      = (refreshFull c db (.success d) now true).1 ∧
    (refreshFull c db (.success d) now false).2.1
      = (refreshFull c db (.success d) now true).2.1 ∧
    (refreshFull c db (.success d) now false).2.1.access_token = some a ∧
    (refreshFull c db (.success d) now false).2.1.expires_at
      = some (now + d.expires_in * 1000) ∧
    (refreshFull c db (.success d) now false).2.2.1 = db := by
  refine ⟨?_, ?_, ?_, ?_, ?_, ?_⟩ <;>
    simp [refreshFull, refreshAccessToken, hf1, hrt, refreshTryBlock, updateTokens,
      writeSpotifyTokens, ha]

/-- Witness: a successful refresh of cStale whose store write fails still
hands the caller "A2" and the cache holds "A2". -/
theorem persist_failure_swallowed_w :
    jsTruthyStr cStale.refresh_token = true ∧
    (refreshFull cStale none
      (.success { access_token := some "A2", refresh_token := none, expires_in := 3600 })
      5 false).1 = .value (some "A2") ∧
    (refreshFull cStale none
      (.success { access_token := some "A2", refresh_token := none, expires_in := 3600 })
      5 false).2.1.access_token = some "A2" :=
  ⟨by decide,
    (persist_failure_swallowed cStale none
      { access_token := some "A2", refresh_token := none, expires_in := 3600 }
      "A2" 5 rfl (by decide) rfl).1,
    (persist_failure_swallowed cStale none
      { access_token := some "A2", refresh_token := none, expires_in := 3600 }
      "A2" 5 rfl (by decide) rfl).2.2.2.1⟩

/-- C9.  Round trip: starting from the empty cache, recordExternalUpdate —
updateTokens(a, r, e) at instant t — followed immediately by
getValidAccessToken returns a with no fetch and no store write on the read
path, for every non-empty access token a, any refresh-token argument r,
and any expires_in e beyond the 60-second margin. -/
theorem roundtrip_update_then_get (a : String) (r : Option String) (e t : Nat)
    (u : UpstreamOutcome) (ha : a ≠ "") (he : 60 < e) :
    getValidAccessToken (updateTokens emptyCache (some a) r e t).1 u t
      = (.value (some a), (updateTokens emptyCache (some a) r e t).1,
         { fetches := 0, dbWrite := none }) := by
  have hv : tokenValid (updateTokens emptyCache (some a) r e t).1 t = true := by
    refine tokenValid_of _ a (t + e * 1000) t rfl ha rfl ?_
    omega
  unfold getValidAccessToken
  rw [hv]
  simp [updateTokens]

/-- Witness: updateTokens("A1","R1",3600) at t = 0 then an immediate read
returns "A1" with no fetch. -/
theorem roundtrip_update_then_get_w :
    ("A1" : String) ≠ "" ∧ (60 : Nat) < 3600 ∧
    getValidAccessToken (updateTokens emptyCache (some "A1") (some "R1") 3600 0).1
        .httpError 0
      = (.value (some "A1"), (updateTokens emptyCache (some "A1") (some "R1") 3600 0).1,
         { fetches := 0, dbWrite := none }) :=
  ⟨by decide, by decide,
    roundtrip_update_then_get "A1" (some "R1") 3600 0 .httpError (by decide) (by decide)⟩

/-- C10.  Totality at the public interface: for every cache state,
upstream outcome, instant and pending-promise value, the middleware either
responds 401 or proceeds with a non-empty token — its null check covers
every failure path.  The try block genuinely throws on a network error
(refreshTryBlock is an Except.error), yet refreshAccessToken still returns
a plain value (null) or awaits the shared promise: no exception reaches
the caller. -/
theorem middleware_total (c : TokenCache) (u : UpstreamOutcome) (now : Nat)
    (fv : Option String) :
    ((spotifyAuthMiddleware c u now fv).1 = .unauthorized ∨
      ∃ s, s ≠ "" ∧ (spotifyAuthMiddleware c u now fv).1 = .nextWith s) ∧
    (∀ cF, refreshTryBlock cF .netError now = .error ()) ∧
    ((refreshAccessToken c .netError now).1 = .value none ∨
      (refreshAccessToken c .netError now).1 = .awaitFlight) := by
  refine ⟨?_, fun cF => rfl, ?_⟩
  · by_cases h : jsTruthyStr (resolveCall (getValidAccessToken c u now).1 fv) = true
    · right
      obtain ⟨s, hs, hne⟩ := (jsTruthyStr_iff _).mp h
      refine ⟨s, hne, ?_⟩
      simp [spotifyAuthMiddleware, h, hs, jsTruthyStr_some, hne]
    · left
      have h' : jsTruthyStr (resolveCall (getValidAccessToken c u now).1 fv) = false := by
        simpa using h
      simp [spotifyAuthMiddleware, h']
  · by_cases h1 : (c.isRefreshing && c.refreshPromise) = true
    · right
      simp [refreshAccessToken, h1]
    · have h1' : (c.isRefreshing && c.refreshPromise) = false := by simpa using h1
      by_cases h2 : jsTruthyStr c.refresh_token = true
      · left
        simp [refreshAccessToken, h1', h2, refreshTryBlock]
      · have h2' : jsTruthyStr c.refresh_token = false := by simpa using h2
        left
        simp [refreshAccessToken, h1', h2']

end Spotify
